import Mathlib

/-!
# Verification of the 7z streaming archive extraction engine

Shallow embedding of `src/comix_tensors/src/comics/archive/seven_zip/mod.rs`:
the iterator that turns the lzma SDK's index-based native decoder into a lazy
stream of `ArchiveFile` records.

The native lzma SDK is modelled as an oracle (`SzArchive`, `OpenEnv`): its
queries and their outcomes are parameters, while every decision the Rust code
makes on those outcomes (control flow, state updates, produced records, the
sequence of native calls) is embedded faithfully.  Native calls are recorded in
an event trace (`NativeEvent`) so that claims about which calls occur, and in
which order, are provable.
-/

namespace SevenZip

/-- Error type of the module (`error.rs` is referenced from the source as
`mod error`; its variants are modelled from their uses in `mod.rs`:
`SevenZipError::Native(SZ)`, `From<String>`, and `From<FromUtf16Error>`). -/
inductive SevenZipError where
  | native (code : Nat)
  | message (msg : String)
  | utf16
deriving DecidableEq, Repr

/-- `SZ_ERROR_MEM` status code of the lzma SDK. -/
def SZ_ERROR_MEM : Nat := 2

/-- One produced record (struct `ArchiveFile` of the parent module; its fields
are evident from the construction at `mod.rs:328-333`).  Content bytes are
modelled as `List Nat`. -/
structure ArchiveFile where
  pos : Nat
  name : String
  is_dir : Bool
  content : Option (List Nat)
deriving DecidableEq, Repr

/-- Native calls the Rust code can make, recorded as an event trace.
`freeOutBuffer` and `freeNameBuffer` are listed so that their absence from a
teardown trace is expressible; the embedded code never emits them because the
source has no corresponding call. -/
inductive NativeEvent where
  | dupFd (fd : Int)
  | fdopenCall (fd : Int)
  | createVTables
  | lookBufAlloc (size : Nat)
  | crcGenerateTable
  | szArExInit
  | szArExOpen
  | isDirQuery (pos : Nat)
  | nameLenQuery (pos : Nat)
  | szFreeName
  | szAllocName (bytes : Nat)
  | nameDecode (pos : Nat)
  | extractCall (pos : Nat)
  | fcloseCall
  | szArExFree
  | freeLookBuf
  | freeOutBuffer
  | freeNameBuffer
deriving DecidableEq, Repr

/-- The solid-block cache threaded by `&mut` into `SzArEx_Extract`
(`block_index`, `out_buffer`, `out_buffer_size` of `OpenedArchive`).
`out_buffer = none` models the null pointer before first use; `some bytes`
models decoder-owned scratch memory currently holding `bytes`. -/
structure SolidBlockCache where
  blockIndex : Nat
  outBuffer : Option (List Nat)
  outBufferSize : Nat
deriving DecidableEq, Repr

/-- Outcome of one `SzArEx_Extract` call: the native status, and on success the
offset and length of the requested entry inside the (possibly re-decoded)
scratch buffer. -/
inductive ExtractOutcome where
  | ok (offset : Nat) (size : Nat)
  | err (code : Nat)
deriving DecidableEq, Repr

def ExtractOutcome.isOk : ExtractOutcome → Bool
  | .ok _ _ => true
  | .err _ => false

/-- Oracle for the opened native archive index (`CSzArEx db`) and the
allocator: per-position metadata queries, the extraction primitive (which may
rewrite the solid-block cache), and allocation success.
`nameLen pos` is the value returned by `SzArEx_GetFileNameUtf16` with a null
destination (length in `UInt16` units, terminator included); `nameUnits pos`
are the units it writes on the second call. -/
structure SzArchive where
  numFiles : Nat
  isDirFlag : Nat → Bool
  nameLen : Nat → Nat
  nameUnits : Nat → List Nat
  extract : Nat → SolidBlockCache → SolidBlockCache × ExtractOutcome
  szAllocOk : Nat → Bool

/-- Decode a list of UTF-16 code units into unicode characters, failing on any
lone surrogate — the semantics of Rust's `String::from_utf16`. -/
def decodeUtf16 : List Nat → Option (List Char)
  | [] => some []
  | u :: rest =>
    if u < 0xD800 ∨ 0xE000 ≤ u then
      (decodeUtf16 rest).map (fun cs => Char.ofNat u :: cs)
    else if u < 0xDC00 then
      match rest with
      | [] => none
      | v :: rest2 =>
        if 0xDC00 ≤ v ∧ v < 0xE000 then
          (decodeUtf16 rest2).map
            (fun cs => Char.ofNat (0x10000 + (u - 0xD800) * 0x400 + (v - 0xDC00)) :: cs)
        else none
    else none

/-- `String::from_utf16(...)?` — the `?` converts the error via
`From<FromUtf16Error>`. -/
def fromUtf16 (units : List Nat) : Except SevenZipError String :=
  match decodeUtf16 units with
  | none => Except.error SevenZipError.utf16
  | some cs => Except.ok (String.mk cs)

/-- State of `struct ArchiveData` relevant to the embedding: the look-ahead
input buffer size set by `init` (`look_stream.bufSize`).  The raw pointers and
vtables carry no further observable state. -/
structure ArchiveData where
  inputBufSize : Nat
deriving DecidableEq, Repr

/-- `const INPUT_BUF_SIZE: size_t = 1 << 18`. -/
def INPUT_BUF_SIZE : Nat := 2 ^ 18

/-- State of `struct OpenedArchive`: the name scratch buffer (`temp_size`
capacity in `UInt16` units, `tempNull` models whether `temp` is the null
pointer) and the solid-block cache fields.  `iter_readed_count` is carried for
fidelity; the source never updates it. -/
structure OpenedArchive where
  archive_data : ArchiveData
  iter_readed_count : Nat
  temp_size : Nat
  tempNull : Bool
  block_index : Nat
  out_buffer : Option (List Nat)
  out_buffer_size : Nat
deriving DecidableEq, Repr

/-- `impl From<ArchiveData> for OpenedArchive`. -/
def OpenedArchive.ofArchiveData (d : ArchiveData) : OpenedArchive :=
  { archive_data := d
    iter_readed_count := 0
    temp_size := 0
    tempNull := true
    block_index := 0xFFFFFFFF
    out_buffer := none
    out_buffer_size := 0 }

/-- `struct ArchiveIterator`. -/
structure ArchiveIterator where
  archive : OpenedArchive
  current_pos : Nat
deriving DecidableEq, Repr

/-- `impl IntoIterator for OpenedArchive`. -/
def OpenedArchive.into_iter (oa : OpenedArchive) : ArchiveIterator :=
  { archive := oa, current_pos := 0 }

/-- `OpenedArchive::files_count` reads `db.NumFiles`; the index is part of
the oracle. -/
def files_count (ar : SzArchive) : Nat := ar.numFiles

/-- `ArchiveIterator::is_dir`. -/
def ArchiveIterator.is_dir (ar : SzArchive) (_it : ArchiveIterator) (pos : Nat) : Bool :=
  ar.isDirFlag pos

/-- `ArchiveIterator::read_file_name` (`mod.rs:267-304`): query the required
length; if it exceeds `temp_size`, free the old buffer and allocate a new one
of `len * size_of_val(&temp)` bytes (`size_of_val` of the *pointer*, i.e. 8),
failing if allocation fails; then decode the written UTF-16 units
(`len - 1` of them, the terminator excluded). -/
def ArchiveIterator.read_file_name (ar : SzArchive) (it : ArchiveIterator) (pos : Nat) :
    ArchiveIterator × List NativeEvent × Except SevenZipError String :=
  let len := ar.nameLen pos
  if len > it.archive.temp_size then
    let bytes := len * 8
    let a1 := { it.archive with temp_size := len }
    if ar.szAllocOk bytes then
      ({ it with archive := { a1 with tempNull := false } },
       [NativeEvent.nameLenQuery pos, NativeEvent.szFreeName,
        NativeEvent.szAllocName bytes, NativeEvent.nameDecode pos],
       fromUtf16 ((ar.nameUnits pos).take (len - 1)))
    else
      ({ it with archive := { a1 with tempNull := true } },
       [NativeEvent.nameLenQuery pos, NativeEvent.szFreeName,
        NativeEvent.szAllocName bytes],
       Except.error (SevenZipError.message
         ("Can't get 7z file name by position " ++ toString pos)))
  else
    (it,
     [NativeEvent.nameLenQuery pos, NativeEvent.nameDecode pos],
     fromUtf16 ((ar.nameUnits pos).take (len - 1)))

/-- `ArchiveIterator::read_file` (`mod.rs:226-264`): run `SzArEx_Extract` with
the session's solid-block cache passed by `&mut` (so the cache fields are
updated whatever the outcome), and on success return the slice
`out_buffer[offset .. offset + out_size_processed]` as owned bytes. -/
def ArchiveIterator.read_file (ar : SzArchive) (it : ArchiveIterator) (pos : Nat) :
    ArchiveIterator × List NativeEvent × Except SevenZipError (List Nat) :=
  let cache : SolidBlockCache :=
    { blockIndex := it.archive.block_index
      outBuffer := it.archive.out_buffer
      outBufferSize := it.archive.out_buffer_size }
  let res := ar.extract pos cache
  let it2 : ArchiveIterator :=
    { it with archive :=
      { it.archive with
        block_index := res.1.blockIndex
        out_buffer := res.1.outBuffer
        out_buffer_size := res.1.outBufferSize } }
  (it2, [NativeEvent.extractCall pos],
   match res.2 with
   | ExtractOutcome.err _ =>
     Except.error (SevenZipError.message
       ("Can't get 7z file content by position " ++ toString pos))
   | ExtractOutcome.ok offset size =>
     Except.ok (((res.1.outBuffer.getD []).drop offset).take size))

/-- `ArchiveIterator::next` (`mod.rs:310-344`).  Returns the successor state,
the trace of native calls made by this advance, and `none` for end of
iteration, `some (ok file)` for a produced record, or `some (error e)` when a
step failed (in which case `current_pos` is not incremented). -/
def ArchiveIterator.next (ar : SzArchive) (it : ArchiveIterator) :
    ArchiveIterator × List NativeEvent × Option (Except SevenZipError ArchiveFile) :=
  if it.current_pos = files_count ar then
    (it, [], none)
  else
    let pos := it.current_pos
    let isDir := ArchiveIterator.is_dir ar it pos
    match ArchiveIterator.read_file_name ar it pos with
    | (it1, ev1, Except.error e) =>
      (it1, NativeEvent.isDirQuery pos :: ev1, some (Except.error e))
    | (it1, ev1, Except.ok file_name) =>
      match ArchiveIterator.read_file ar it1 pos with
      | (it2, ev2, Except.error e) =>
        (it2, NativeEvent.isDirQuery pos :: (ev1 ++ ev2), some (Except.error e))
      | (it2, ev2, Except.ok content) =>
        let file_content := if isDir then none else some content
        let file : ArchiveFile :=
          { pos := pos, name := file_name, is_dir := isDir, content := file_content }
        ({ it2 with current_pos := pos + 1 },
         NativeEvent.isDirQuery pos :: (ev1 ++ ev2),
         some (Except.ok file))

/-- `Iterator::size_hint` for `ArchiveIterator` (`mod.rs:346-349`):
`(0, Some(files_count))`, independent of the cursor. -/
def ArchiveIterator.size_hint (ar : SzArchive) (_it : ArchiveIterator) : Nat × Option Nat :=
  (0, some (files_count ar))

/-- Modelled from the Rust standard library: the source declares
`impl ExactSizeIterator for ArchiveIterator {}` (`mod.rs:351`) without
overriding `len`, so `len()` is the std default, which asserts that the upper
bound of `size_hint` equals `Some(lower)` and returns the lower bound.
`none` models the panic of the failed assertion. -/
def ArchiveIterator.exact_size_len (ar : SzArchive) (it : ArchiveIterator) : Option Nat :=
  let hint := ArchiveIterator.size_hint ar it
  if hint.2 = some hint.1 then some hint.1 else none

/-- Oracle for the session-opening path: outcome of `dup`, whether `fdopen`
returns a non-null `FILE*`, whether the look-ahead buffer allocation succeeds,
and the status `SzArEx_Open` returns (`0` = `SZ_OK`). -/
structure OpenEnv where
  dupResult : Int
  fdopenOk : Bool
  lookAllocOk : Bool
  szOpenRes : Nat
deriving DecidableEq, Repr

/-- `open_archive` (`mod.rs:25-40`): `fdopen(fd, "rb")`, failing when the
returned `FILE*` is null. -/
def open_archive (env : OpenEnv) (fd : Int) :
    List NativeEvent × Except SevenZipError Unit :=
  ([NativeEvent.fdopenCall fd],
   if env.fdopenOk then Except.ok ()
   else Except.error (SevenZipError.message
     ("Can't open 7z archive with FD: " ++ toString fd)))

/-- `ArchiveData::new` (`mod.rs:94-102`). -/
def ArchiveData.new (env : OpenEnv) (fd : Int) :
    List NativeEvent × Except SevenZipError ArchiveData :=
  match open_archive env fd with
  | (ev, Except.error e) => (ev, Except.error e)
  | (ev, Except.ok _) => (ev, Except.ok { inputBufSize := 0 })

/-- `ArchiveData::init` (`mod.rs:105-143`): create the vtables, allocate the
look-ahead buffer (failing with `SZ_ERROR_MEM` when the allocator returns
null), generate the CRC table, init the index, and run `SzArEx_Open`
(failing with its native status when it is not `SZ_OK`). -/
def ArchiveData.init (env : OpenEnv) (d : ArchiveData) (buf_size : Nat) :
    List NativeEvent × Except SevenZipError ArchiveData :=
  let ev1 := [NativeEvent.createVTables, NativeEvent.lookBufAlloc buf_size]
  if env.lookAllocOk then
    let d2 := { d with inputBufSize := buf_size }
    let ev2 := ev1 ++ [NativeEvent.crcGenerateTable, NativeEvent.szArExInit,
      NativeEvent.szArExOpen]
    if env.szOpenRes = 0 then (ev2, Except.ok d2)
    else (ev2, Except.error (SevenZipError.native env.szOpenRes))
  else
    (ev1, Except.error (SevenZipError.native SZ_ERROR_MEM))

/-- Body of the `future::lazy` closure in `SevenZipArchive::open`
(`mod.rs:52-66`): `dup` the descriptor, build `ArchiveData`, run `init`, and
wrap the result as an `OpenedArchive`. -/
def SevenZipArchive.openRun (env : OpenEnv) (fd : Int) :
    List NativeEvent × Except SevenZipError OpenedArchive :=
  let evDup := [NativeEvent.dupFd fd]
  match ArchiveData.new env env.dupResult with
  | (ev, Except.error e) => (evDup ++ ev, Except.error e)
  | (ev, Except.ok d) =>
    match ArchiveData.init env d INPUT_BUF_SIZE with
    | (ev2, Except.error e) => (evDup ++ ev ++ ev2, Except.error e)
    | (ev2, Except.ok d2) =>
      (evDup ++ ev ++ ev2, Except.ok (OpenedArchive.ofArchiveData d2))

/-- `impl Drop for ArchiveData` (`mod.rs:146-159`): call `fclose` on the input
stream first, then `SzArEx_Free` on the index, then free the look-ahead input
buffer; finally panic when `fclose` returned non-zero.  The first component is
the trace of teardown calls in order; the second is `some res` when the drop
panics with `res`, `none` when it returns normally. -/
def ArchiveData.dropRun (fcloseRes : Int) : List NativeEvent × Option Int :=
  ([NativeEvent.fcloseCall, NativeEvent.szArExFree, NativeEvent.freeLookBuf],
   if fcloseRes = 0 then none else some fcloseRes)

/-- Teardown of `OpenedArchive`: the source defines no `Drop` for
`OpenedArchive` (nor for `ArchiveIterator`), so dropping it only runs
`ArchiveData`'s drop; `temp` and `out_buffer` have no release call. -/
def OpenedArchive.dropRun (fcloseRes : Int) : List NativeEvent × Option Int :=
  ArchiveData.dropRun fcloseRes

/-- Drive the iterator the way `stream::iter_result(...).flatten_stream()`
is consumed: forward records until end of iteration, treating the first
`Err` item as the stream's terminal error.  `fuel` bounds the number of
polls; `ar.numFiles + 1` is always enough (each record advances the cursor). -/
def driveIterator (ar : SzArchive) : Nat → ArchiveIterator →
    List ArchiveFile × Option SevenZipError
  | 0, _ => ([], none)
  | fuel + 1, it =>
    match ArchiveIterator.next ar it with
    | (_, _, none) => ([], none)
    | (_, _, some (Except.error e)) => ([], some e)
    | (it2, _, some (Except.ok f)) =>
      let rest := driveIterator ar fuel it2
      (f :: rest.1, rest.2)

/-- `SevenZipArchive::stream_files` (`mod.rs:69-71`):
`open().map(stream::iter_result).flatten_stream()`.  `future::lazy` defers
every effect until the stream is first polled: `pulled = false` is the state
right after construction, `pulled = true` the result of driving the stream.
Returns the native-call trace of the open phase, the records delivered, and
the terminal error if any. -/
def SevenZipArchive.stream_files (env : OpenEnv) (ar : SzArchive) (fd : Int)
    (pulled : Bool) :
    List NativeEvent × List ArchiveFile × Option SevenZipError :=
  if pulled then
    match SevenZipArchive.openRun env fd with
    | (ev, Except.error e) => (ev, [], some e)
    | (ev, Except.ok oa) =>
      let res := driveIterator ar (ar.numFiles + 1) (OpenedArchive.into_iter oa)
      (ev, res.1, res.2)
  else ([], [], none)

/-! ### Success conditions for a fully healthy archive -/

/-- Every `SzAlloc` call for the name buffer succeeds. -/
def allocAlwaysOk (ar : SzArchive) : Prop :=
  ∀ bytes, ar.szAllocOk bytes = true

/-- Every in-range entry name decodes as valid UTF-16. -/
def namesDecodable (ar : SzArchive) : Prop :=
  ∀ p, p < ar.numFiles →
    (decodeUtf16 ((ar.nameUnits p).take (ar.nameLen p - 1))).isSome = true

/-- Every in-range extraction call succeeds, whatever the cache state. -/
def extractTotal (ar : SzArchive) : Prop :=
  ∀ p c, p < ar.numFiles → ((ar.extract p c).2).isOk = true

/-! ### Concrete archives used to instantiate the hypotheses of the theorems -/

/-- A healthy two-entry archive: regular files named "A" and "B", every native
call succeeding; extraction decodes a two-byte block and points at one byte. -/
def wAr : SzArchive :=
  { numFiles := 2
    isDirFlag := fun _ => false
    nameLen := fun _ => 2
    nameUnits := fun p => [65 + p, 0]
    extract := fun p c =>
      ({ c with blockIndex := 0, outBuffer := some [10, 20], outBufferSize := 2 },
       ExtractOutcome.ok p 1)
    szAllocOk := fun _ => true }

/-- A one-entry archive whose single entry is a directory; its extraction call
succeeds with an empty slice and rewrites the solid-block cache. -/
def dirAr : SzArchive :=
  { numFiles := 1
    isDirFlag := fun _ => true
    nameLen := fun _ => 2
    nameUnits := fun _ => [100, 0]
    extract := fun _ c =>
      ({ c with blockIndex := 5, outBuffer := some [], outBufferSize := 0 },
       ExtractOutcome.ok 0 0)
    szAllocOk := fun _ => true }

/-- A one-entry archive whose entry name is a lone UTF-16 high surrogate, so
name resolution fails with a `FromUtf16Error`. -/
def errAr : SzArchive :=
  { numFiles := 1
    isDirFlag := fun _ => false
    nameLen := fun _ => 2
    nameUnits := fun _ => [0xD800, 0]
    extract := fun _ c => (c, ExtractOutcome.ok 0 0)
    szAllocOk := fun _ => true }

/-- Freshly opened iterator state shared by the concrete instantiations. -/
def wIt0 : ArchiveIterator :=
  (OpenedArchive.ofArchiveData { inputBufSize := INPUT_BUF_SIZE }).into_iter

/-- The record the healthy archive `wAr` produces at position 0. -/
def wFile : ArchiveFile :=
  { pos := 0, name := "A", is_dir := false, content := some [10] }

/-- The record the directory archive `dirAr` produces at position 0. -/
def dirFile : ArchiveFile :=
  { pos := 0, name := "d", is_dir := true, content := none }

/-- Iterator state after `next` fails on `errAr` at position 0: the name
buffer has grown to hold 2 units, the cursor has not moved. -/
def errItAfter : ArchiveIterator :=
  { archive :=
    { archive_data := { inputBufSize := INPUT_BUF_SIZE }
      iter_readed_count := 0
      temp_size := 2
      tempNull := false
      block_index := 0xFFFFFFFF
      out_buffer := none
      out_buffer_size := 0 }
    current_pos := 0 }

/-- The open environment in which `fdopen` fails. -/
def failEnv : OpenEnv :=
  { dupResult := -1, fdopenOk := false, lookAllocOk := true, szOpenRes := 0 }

/-- The freshly opened session state shared by the concrete instantiations. -/
def wOa : OpenedArchive :=
  OpenedArchive.ofArchiveData { inputBufSize := INPUT_BUF_SIZE }

/-- Iterator state after the successful advance of `wAr` at position 0. -/
def wItAfter : ArchiveIterator :=
  { archive :=
    { archive_data := { inputBufSize := INPUT_BUF_SIZE }
      iter_readed_count := 0
      temp_size := 2
      tempNull := false
      block_index := 0
      out_buffer := some [10, 20]
      out_buffer_size := 2 }
    current_pos := 1 }

/-- Iterator state after the successful advance of `dirAr` at position 0. -/
def dirItAfter : ArchiveIterator :=
  { archive :=
    { archive_data := { inputBufSize := INPUT_BUF_SIZE }
      iter_readed_count := 0
      temp_size := 2
      tempNull := false
      block_index := 5
      out_buffer := some []
      out_buffer_size := 0 }
    current_pos := 1 }

/-- Native-call trace of one fully successful advance at position 0 that has
to grow the name buffer. -/
def wEvents : List NativeEvent :=
  [NativeEvent.isDirQuery 0, NativeEvent.nameLenQuery 0, NativeEvent.szFreeName,
   NativeEvent.szAllocName 16, NativeEvent.nameDecode 0, NativeEvent.extractCall 0]

/-- Native-call trace of an advance at position 0 that fails while decoding
the name (no extraction call happens). -/
def errEvents : List NativeEvent :=
  [NativeEvent.isDirQuery 0, NativeEvent.nameLenQuery 0, NativeEvent.szFreeName,
   NativeEvent.szAllocName 16, NativeEvent.nameDecode 0]

/-- Native-call trace of `read_file_name` at position 0 growing the buffer. -/
def nameEvents : List NativeEvent :=
  [NativeEvent.nameLenQuery 0, NativeEvent.szFreeName, NativeEvent.szAllocName 16,
   NativeEvent.nameDecode 0]

/-! ### Helper lemmas -/

theorem read_file_events (ar : SzArchive) (it : ArchiveIterator) (pos : Nat) :
    (ArchiveIterator.read_file ar it pos).2.1 = [NativeEvent.extractCall pos] := rfl

theorem read_file_preserves_pos (ar : SzArchive) (it : ArchiveIterator) (pos : Nat) :
    (ArchiveIterator.read_file ar it pos).1.current_pos = it.current_pos := rfl

theorem read_file_name_preserves_pos (ar : SzArchive) (it : ArchiveIterator) (pos : Nat) :
    (ArchiveIterator.read_file_name ar it pos).1.current_pos = it.current_pos := by
  simp only [ArchiveIterator.read_file_name]
  split
  · split <;> rfl
  · rfl

theorem next_end (ar : SzArchive) (it : ArchiveIterator)
    (h : it.current_pos = files_count ar) :
    ArchiveIterator.next ar it = (it, [], none) := by
  simp only [ArchiveIterator.next]
  rw [if_pos h]

theorem next_unfold (ar : SzArchive) (it : ArchiveIterator)
    (h : ¬ it.current_pos = files_count ar) :
    ArchiveIterator.next ar it =
      match ArchiveIterator.read_file_name ar it it.current_pos with
      | (it1, ev1, Except.error e) =>
        (it1, NativeEvent.isDirQuery it.current_pos :: ev1, some (Except.error e))
      | (it1, ev1, Except.ok file_name) =>
        match ArchiveIterator.read_file ar it1 it.current_pos with
        | (it2, ev2, Except.error e) =>
          (it2, NativeEvent.isDirQuery it.current_pos :: (ev1 ++ ev2),
           some (Except.error e))
        | (it2, ev2, Except.ok content) =>
          ({ it2 with current_pos := it.current_pos + 1 },
           NativeEvent.isDirQuery it.current_pos :: (ev1 ++ ev2),
           some (Except.ok
             { pos := it.current_pos
               name := file_name
               is_dir := ArchiveIterator.is_dir ar it it.current_pos
               content := if ArchiveIterator.is_dir ar it it.current_pos then none
                 else some content })) := by
  simp only [ArchiveIterator.next]
  rw [if_neg h]

theorem next_ok_inv (ar : SzArchive) (it it2 : ArchiveIterator)
    (ev : List NativeEvent) (f : ArchiveFile)
    (h : ArchiveIterator.next ar it = (it2, ev, some (Except.ok f))) :
    f.pos = it.current_pos ∧
    it2.current_pos = it.current_pos + 1 ∧
    f.is_dir = ar.isDirFlag it.current_pos ∧
    f.content.isSome = !f.is_dir ∧
    (f.is_dir = true → f.content = none) ∧
    NativeEvent.extractCall it.current_pos ∈ ev := by
  by_cases hpos : it.current_pos = files_count ar
  · rw [next_end ar it hpos] at h
    simp at h
  · rw [next_unfold ar it hpos] at h
    split at h
    · simp at h
    · rename_i x1 it1 ev1 s heq1
      split at h
      · simp at h
      · rename_i x2 it2x ev2 c heq2
        have hev2 : ev2 = [NativeEvent.extractCall it.current_pos] := by
          have t := read_file_events ar it1 it.current_pos
          rw [heq2] at t
          exact t
        simp only [Prod.mk.injEq, Option.some.injEq, Except.ok.injEq] at h
        obtain ⟨hi, hv, hf⟩ := h
        subst hi
        subst hv
        subst hf
        refine ⟨rfl, rfl, rfl, ?_, ?_, ?_⟩
        · cases hd : ArchiveIterator.is_dir ar it it.current_pos <;>
            simp [ArchiveIterator.is_dir] at hd <;>
            simp [hd]
        · intro hdir
          simp only [ArchiveIterator.is_dir] at hdir ⊢
          simp [hdir]
        · simp [hev2, List.mem_append]

theorem next_err_inv (ar : SzArchive) (it it2 : ArchiveIterator)
    (ev : List NativeEvent) (e : SevenZipError)
    (h : ArchiveIterator.next ar it = (it2, ev, some (Except.error e))) :
    it2.current_pos = it.current_pos := by
  by_cases hpos : it.current_pos = files_count ar
  · rw [next_end ar it hpos] at h
    simp at h
  · rw [next_unfold ar it hpos] at h
    split at h
    · rename_i x1 it1 ev1 e1 heq1
      have hp1 : it1.current_pos = it.current_pos := by
        have t := read_file_name_preserves_pos ar it it.current_pos
        rw [heq1] at t
        exact t
      simp only [Prod.mk.injEq, Option.some.injEq, Except.error.injEq] at h
      obtain ⟨hi, _, _⟩ := h
      subst hi
      exact hp1
    · rename_i x1 it1 ev1 s heq1
      split at h
      · rename_i x2 it2x ev2 e2 heq2
        have hp1 : it1.current_pos = it.current_pos := by
          have t := read_file_name_preserves_pos ar it it.current_pos
          rw [heq1] at t
          exact t
        have hp2 : it2x.current_pos = it1.current_pos := by
          have t := read_file_preserves_pos ar it1 it.current_pos
          rw [heq2] at t
          exact t
        simp only [Prod.mk.injEq, Option.some.injEq, Except.error.injEq] at h
        obtain ⟨hi, _, _⟩ := h
        subst hi
        rw [hp2, hp1]
      · simp at h

theorem fromUtf16_ok (u : List Nat) (h : (decodeUtf16 u).isSome = true) :
    ∃ s, fromUtf16 u = Except.ok s := by
  rcases hd : decodeUtf16 u with _ | cs
  · rw [hd] at h
    simp at h
  · exact ⟨String.mk cs, by simp [fromUtf16, hd]⟩

theorem read_file_name_ok (ar : SzArchive) (hA : allocAlwaysOk ar)
    (hN : namesDecodable ar) (it : ArchiveIterator) (pos : Nat)
    (hlt : pos < ar.numFiles) :
    ∃ s, (ArchiveIterator.read_file_name ar it pos).2.2 = Except.ok s := by
  obtain ⟨s, hs⟩ := fromUtf16_ok _ (hN pos hlt)
  refine ⟨s, ?_⟩
  simp only [ArchiveIterator.read_file_name]
  split
  · rw [if_pos (hA _)]
    exact hs
  · exact hs

theorem read_file_ok (ar : SzArchive) (hE : extractTotal ar)
    (it : ArchiveIterator) (pos : Nat) (hlt : pos < ar.numFiles) :
    ∃ c, (ArchiveIterator.read_file ar it pos).2.2 = Except.ok c := by
  have h := hE pos
    { blockIndex := it.archive.block_index
      outBuffer := it.archive.out_buffer
      outBufferSize := it.archive.out_buffer_size } hlt
  simp only [ArchiveIterator.read_file]
  rcases hx : (ar.extract pos
      { blockIndex := it.archive.block_index
        outBuffer := it.archive.out_buffer
        outBufferSize := it.archive.out_buffer_size }).2 with ⟨off, sz⟩ | code
  · exact ⟨_, rfl⟩
  · rw [hx] at h
    simp [ExtractOutcome.isOk] at h

theorem next_ok_total (ar : SzArchive) (hA : allocAlwaysOk ar)
    (hN : namesDecodable ar) (hE : extractTotal ar) (it : ArchiveIterator)
    (hlt : it.current_pos < ar.numFiles) :
    ∃ it2 ev f, ArchiveIterator.next ar it = (it2, ev, some (Except.ok f)) ∧
      it2.current_pos = it.current_pos + 1 ∧ f.pos = it.current_pos := by
  have hne : ¬ it.current_pos = files_count ar := by
    simp only [files_count]
    omega
  rw [next_unfold ar it hne]
  obtain ⟨s, hs⟩ := read_file_name_ok ar hA hN it it.current_pos hlt
  split
  · rename_i x1 it1 ev1 e1 heq1
    rw [heq1] at hs
    simp at hs
  · rename_i x1 it1 ev1 s2 heq1
    obtain ⟨c, hc⟩ := read_file_ok ar hE it1 it.current_pos hlt
    split
    · rename_i x2 it2x ev2 e2 heq2
      rw [heq2] at hc
      simp at hc
    · refine ⟨_, _, _, rfl, ?_, ?_⟩ <;> rfl

theorem driveIterator_succ (ar : SzArchive) (fuel : Nat) (it : ArchiveIterator) :
    driveIterator ar (fuel + 1) it =
      match ArchiveIterator.next ar it with
      | (_, _, none) => ([], none)
      | (_, _, some (Except.error e)) => ([], some e)
      | (it2, _, some (Except.ok f)) =>
        ((driveIterator ar fuel it2).1.cons f, (driveIterator ar fuel it2).2) := rfl

theorem driveIterator_complete (ar : SzArchive) (hA : allocAlwaysOk ar)
    (hN : namesDecodable ar) (hE : extractTotal ar) :
    ∀ k it fuel, it.current_pos + k = ar.numFiles → k + 1 ≤ fuel →
      (driveIterator ar fuel it).2 = none ∧
      (driveIterator ar fuel it).1.map ArchiveFile.pos =
        List.range' it.current_pos k := by
  intro k
  induction k with
  | zero =>
    intro it fuel hpos hfuel
    obtain ⟨fuel2, rfl⟩ : ∃ m, fuel = m + 1 := ⟨fuel - 1, by omega⟩
    have hend : ArchiveIterator.next ar it = (it, [], none) :=
      next_end ar it (by simp only [files_count]; omega)
    rw [driveIterator_succ, hend]
    exact ⟨rfl, rfl⟩
  | succ k ih =>
    intro it fuel hpos hfuel
    obtain ⟨fuel2, rfl⟩ : ∃ m, fuel = m + 1 := ⟨fuel - 1, by omega⟩
    obtain ⟨it2, ev, f, hnext, hpos2, hfpos⟩ :=
      next_ok_total ar hA hN hE it (by omega)
    rw [driveIterator_succ, hnext]
    have hih := ih it2 fuel2 (by omega) (by omega)
    refine ⟨hih.1, ?_⟩
    show (f :: (driveIterator ar fuel2 it2).1).map ArchiveFile.pos =
      it.current_pos :: List.range' (it.current_pos + 1) k
    rw [List.map_cons, hih.2, hfpos, hpos2]

/-! ### Claims -/

/-- Claim C1: for every successfully opened archive in which every native
per-entry query, name-resolution, and extraction call succeeds, driving the
iterator to completion produces exactly `entry_count()` records, one per
position `0, 1, ..., entry_count() - 1`, in strictly increasing position
order with each position occurring exactly once, and the stream ends without
error. -/
theorem C1_iteration_produces_every_position (ar : SzArchive) (oa : OpenedArchive)
    (hA : allocAlwaysOk ar) (hN : namesDecodable ar) (hE : extractTotal ar) :
    (driveIterator ar (files_count ar + 1) (OpenedArchive.into_iter oa)).2 = none ∧
    (driveIterator ar (files_count ar + 1) (OpenedArchive.into_iter oa)).1.map
      ArchiveFile.pos = List.range (files_count ar) ∧
    (driveIterator ar (files_count ar + 1) (OpenedArchive.into_iter oa)).1.length
      = files_count ar := by
  have h := driveIterator_complete ar hA hN hE ar.numFiles
    (OpenedArchive.into_iter oa) (ar.numFiles + 1) (Nat.zero_add _) (Nat.le_refl _)
  refine ⟨h.1, ?_, ?_⟩
  · rw [List.range_eq_range']
    exact h.2
  · have hl := congrArg List.length h.2
    rw [List.length_map, List.length_range'] at hl
    exact hl

/-- Witness for C1: the healthy two-entry archive `wAr` yields records at
positions `[0, 1]` with no error. -/
theorem C1_witness :
    (driveIterator wAr (files_count wAr + 1) (OpenedArchive.into_iter wOa)).2 = none ∧
    (driveIterator wAr (files_count wAr + 1) (OpenedArchive.into_iter wOa)).1.map
      ArchiveFile.pos = List.range (files_count wAr) ∧
    (driveIterator wAr (files_count wAr + 1) (OpenedArchive.into_iter wOa)).1.length
      = files_count wAr :=
  C1_iteration_produces_every_position wAr wOa (fun _ => rfl)
    (by unfold namesDecodable; decide) (fun _ _ _ => rfl)

/-- Claim C2: every record produced by a successful advance satisfies
`content.is_some() == !is_dir`. -/
theorem C2_content_present_iff_not_dir (ar : SzArchive) (it it2 : ArchiveIterator)
    (ev : List NativeEvent) (f : ArchiveFile)
    (h : ArchiveIterator.next ar it = (it2, ev, some (Except.ok f))) :
    f.content.isSome = !f.is_dir :=
  (next_ok_inv ar it it2 ev f h).2.2.2.1

/-- Witness for C2: the record produced by `wAr` at position 0. -/
theorem C2_witness : wFile.content.isSome = !wFile.is_dir :=
  C2_content_present_iff_not_dir wAr wIt0 wItAfter wEvents wFile rfl

/-- Counterexample to C3 as stated: in the actual teardown the underlying
input stream is closed (`fclose`) before the archive index structures are
freed, and neither the solid-block scratch buffer (`out_buffer`) nor the name
buffer (`temp`) is released at all. -/
theorem C3_counterexample :
    (OpenedArchive.dropRun 0).1.take 1 = [NativeEvent.fcloseCall] ∧
    NativeEvent.szArExFree ∈ (OpenedArchive.dropRun 0).1.drop 1 ∧
    NativeEvent.freeOutBuffer ∉ (OpenedArchive.dropRun 0).1 ∧
    NativeEvent.freeNameBuffer ∉ (OpenedArchive.dropRun 0).1 := by decide

/-- Claim C3 as amended: session teardown runs exactly once through
`Drop for ArchiveData` and performs, in order, `fclose` on the input stream,
then `SzArEx_Free` on the index structures, then the free of the look-ahead
input buffer; the solid-block scratch buffer and the name buffer are not
released by teardown, and the drop panics exactly when `fclose` failed. -/
theorem C3_teardown_actual_order (res : Int) :
    (OpenedArchive.dropRun res).1 =
      [NativeEvent.fcloseCall, NativeEvent.szArExFree, NativeEvent.freeLookBuf] ∧
    NativeEvent.freeOutBuffer ∉ (OpenedArchive.dropRun res).1 ∧
    NativeEvent.freeNameBuffer ∉ (OpenedArchive.dropRun res).1 ∧
    ((OpenedArchive.dropRun res).2 = none ↔ res = 0) := by
  refine ⟨rfl, ?_, ?_, ?_⟩
  · simp [OpenedArchive.dropRun, ArchiveData.dropRun]
  · simp [OpenedArchive.dropRun, ArchiveData.dropRun]
  · simp only [OpenedArchive.dropRun, ArchiveData.dropRun]
    split <;> rename_i hz
    · simp [hz]
    · simp [hz]

/-- Claim C4 (code bug): when `fclose` fails during teardown the code panics
with the returned code — crashing the process — instead of reporting the
failure as a non-fatal `CloseError`; when `fclose` succeeds the drop returns
normally. -/
theorem C4_close_failure_panics :
    (ArchiveData.dropRun 1).2 = some 1 ∧ (ArchiveData.dropRun 0).2 = none := by
  decide

/-- Counterexample to C5 as stated: at a position whose directory flag is
true, the extraction primitive IS invoked and the solid-block cache state IS
changed by the advance. -/
theorem C5_counterexample :
    dirAr.isDirFlag 0 = true ∧
    NativeEvent.extractCall 0 ∈ (ArchiveIterator.next dirAr wIt0).2.1 ∧
    (ArchiveIterator.next dirAr wIt0).1.archive.block_index ≠
      wIt0.archive.block_index := by decide

/-- Claim C5 as amended: on each advance that produces a record, the
content-extraction primitive is invoked for the entry regardless of its
directory flag (so the solid-block cache may change); when the flag is true
the extracted bytes are discarded and the produced record omits content. -/
theorem C5_extract_called_for_every_record (ar : SzArchive) (it it2 : ArchiveIterator)
    (ev : List NativeEvent) (f : ArchiveFile)
    (h : ArchiveIterator.next ar it = (it2, ev, some (Except.ok f))) :
    NativeEvent.extractCall it.current_pos ∈ ev ∧
    (f.is_dir = true → f.content = none) :=
  ⟨(next_ok_inv ar it it2 ev f h).2.2.2.2.2,
   (next_ok_inv ar it it2 ev f h).2.2.2.2.1⟩

/-- Witness for C5: the directory archive `dirAr` at position 0. -/
theorem C5_witness :
    NativeEvent.extractCall wIt0.current_pos ∈ wEvents ∧
    (dirFile.is_dir = true → dirFile.content = none) :=
  C5_extract_called_for_every_record dirAr wIt0 dirItAfter wEvents dirFile rfl

/-- Claim C6: if name resolution or content extraction fails during an
advance, the advance returns that error and the cursor position is not
advanced. -/
theorem C6_error_does_not_advance (ar : SzArchive) (it it2 : ArchiveIterator)
    (ev : List NativeEvent) (e : SevenZipError)
    (h : ArchiveIterator.next ar it = (it2, ev, some (Except.error e))) :
    it2.current_pos = it.current_pos :=
  next_err_inv ar it it2 ev e h

/-- Witness for C6: the archive `errAr` whose name decoding fails at
position 0. -/
theorem C6_witness : errItAfter.current_pos = wIt0.current_pos :=
  C6_error_does_not_advance errAr wIt0 errItAfter errEvents SevenZipError.utf16 rfl

/-- Claim C7: across `read_file_name` calls the name buffer's capacity never
decreases, a reallocation happens exactly when the required length exceeds the
current capacity, and after every successful call the capacity is at least the
required length (hence, by induction over the run, at least the largest
required length seen so far). -/
theorem C7_name_buffer_never_shrinks (ar : SzArchive) (it it2 : ArchiveIterator)
    (pos : Nat) (ev : List NativeEvent) (r : Except SevenZipError String)
    (h : ArchiveIterator.read_file_name ar it pos = (it2, ev, r)) :
    it.archive.temp_size ≤ it2.archive.temp_size ∧
    (NativeEvent.szAllocName (ar.nameLen pos * 8) ∈ ev ↔
      it.archive.temp_size < ar.nameLen pos) ∧
    (∀ s, r = Except.ok s → ar.nameLen pos ≤ it2.archive.temp_size) := by
  simp only [ArchiveIterator.read_file_name] at h
  split at h
  · rename_i hgt
    split at h
    · rename_i halloc
      injection h with h1 h23
      injection h23 with h2 h3
      subst h1
      subst h2
      subst h3
      refine ⟨Nat.le_of_lt hgt, ⟨fun _ => hgt, fun _ => by simp⟩, ?_⟩
      intro s hs
      exact Nat.le_refl _
    · rename_i halloc
      injection h with h1 h23
      injection h23 with h2 h3
      subst h1
      subst h2
      subst h3
      refine ⟨Nat.le_of_lt hgt, ⟨fun _ => hgt, fun _ => by simp⟩, ?_⟩
      intro s hs
      simp at hs
  · rename_i hle
    injection h with h1 h23
    injection h23 with h2 h3
    subst h1
    subst h2
    subst h3
    refine ⟨Nat.le_refl _, ?_, ?_⟩
    · constructor
      · intro hmem
        simp at hmem
      · intro hlt
        omega
    · intro s hs
      omega

/-- Witness for C7: `read_file_name` on `wAr` at position 0 grows the buffer
from 0 to 2 and succeeds. -/
theorem C7_witness :
    wIt0.archive.temp_size ≤ errItAfter.archive.temp_size ∧
    (NativeEvent.szAllocName (wAr.nameLen 0 * 8) ∈ nameEvents ↔
      wIt0.archive.temp_size < wAr.nameLen 0) ∧
    (∀ s, (Except.ok "A" : Except SevenZipError String) = Except.ok s →
      wAr.nameLen 0 ≤ errItAfter.archive.temp_size) :=
  C7_name_buffer_never_shrinks wAr wIt0 errItAfter 0 nameEvents (Except.ok "A") rfl

/-- Claim C8: constructing the file stream performs no native call
(`future::lazy` defers the `dup`, `fdopen` and decoder-context setup); on
first pull the session is opened, and if opening fails the `OpenError`
becomes the stream's terminal error with zero records produced. -/
theorem C8_lazy_open_failure (env : OpenEnv) (ar : SzArchive) (fd : Int)
    (e : SevenZipError)
    (h : (SevenZipArchive.openRun env fd).2 = Except.error e) :
    SevenZipArchive.stream_files env ar fd false = ([], [], none) ∧
    (SevenZipArchive.stream_files env ar fd true).2.1 = [] ∧
    (SevenZipArchive.stream_files env ar fd true).2.2 = some e := by
  have hsf : SevenZipArchive.stream_files env ar fd true =
      ((SevenZipArchive.openRun env fd).1, [], some e) := by
    simp only [SevenZipArchive.stream_files]
    rw [if_pos True.intro]
    rcases ho : SevenZipArchive.openRun env fd with ⟨ev, r⟩
    have hr : r = Except.error e := by
      rw [ho] at h
      exact h
    subst hr
    rfl
  exact ⟨rfl, by rw [hsf], by rw [hsf]⟩

/-- Witness for C8: the environment `failEnv` whose `fdopen` returns null. -/
theorem C8_witness :
    SevenZipArchive.stream_files failEnv wAr 3 false = ([], [], none) ∧
    (SevenZipArchive.stream_files failEnv wAr 3 true).2.1 = [] ∧
    (SevenZipArchive.stream_files failEnv wAr 3 true).2.2 =
      some (SevenZipError.message "Can't open 7z archive with FD: -1") :=
  C8_lazy_open_failure failEnv wAr 3
    (SevenZipError.message "Can't open 7z archive with FD: -1") rfl

/-- Claim C9: `size_hint` always returns `(0, Some(entry_count))` regardless
of how many items were consumed, while the type implements
`ExactSizeIterator`; hence for any non-empty archive the two bounds differ —
violating the `ExactSizeIterator` contract — and the default `len()` panics
(modelled as `none`). -/
theorem C9_exact_size_contract_violated (ar : SzArchive) (it : ArchiveIterator)
    (h : 0 < files_count ar) :
    ArchiveIterator.size_hint ar it = (0, some (files_count ar)) ∧
    (∀ it2 : ArchiveIterator, ArchiveIterator.size_hint ar it2 =
      ArchiveIterator.size_hint ar it) ∧
    (ArchiveIterator.size_hint ar it).2 ≠ some (ArchiveIterator.size_hint ar it).1 ∧
    ArchiveIterator.exact_size_len ar it = none := by
  refine ⟨rfl, fun _ => rfl, ?_, ?_⟩
  · simp only [ArchiveIterator.size_hint, ne_eq, Option.some.injEq]
    omega
  · simp only [ArchiveIterator.exact_size_len, ArchiveIterator.size_hint]
    rw [if_neg]
    simp only [Option.some.injEq]
    omega

/-- Witness for C9: the two-entry archive `wAr`. -/
theorem C9_witness :
    ArchiveIterator.size_hint wAr wIt0 = (0, some (files_count wAr)) ∧
    (∀ it2 : ArchiveIterator, ArchiveIterator.size_hint wAr it2 =
      ArchiveIterator.size_hint wAr wIt0) ∧
    (ArchiveIterator.size_hint wAr wIt0).2 ≠
      some (ArchiveIterator.size_hint wAr wIt0).1 ∧
    ArchiveIterator.exact_size_len wAr wIt0 = none :=
  C9_exact_size_contract_violated wAr wIt0 (by decide)

/-- Claim C10: the iterator is not fused by an error: after an advance
returns an error the cursor still points at the failing position, so any
subsequent advance re-attempts that same position — a successful retry
produces a record at that position and a failing retry leaves the cursor
there again; error-as-terminal is enforced only by the stream consumer. -/
theorem C10_error_not_fused (ar : SzArchive) (it it2 : ArchiveIterator)
    (ev : List NativeEvent) (e : SevenZipError)
    (h : ArchiveIterator.next ar it = (it2, ev, some (Except.error e))) :
    it2.current_pos = it.current_pos ∧
    (∀ (ar2 : SzArchive) (it3 : ArchiveIterator) (ev2 : List NativeEvent)
       (f : ArchiveFile),
      ArchiveIterator.next ar2 it2 = (it3, ev2, some (Except.ok f)) →
      f.pos = it.current_pos) ∧
    (∀ (ar2 : SzArchive) (it3 : ArchiveIterator) (ev2 : List NativeEvent)
       (e2 : SevenZipError),
      ArchiveIterator.next ar2 it2 = (it3, ev2, some (Except.error e2)) →
      it3.current_pos = it.current_pos) := by
  have hp := next_err_inv ar it it2 ev e h
  refine ⟨hp, ?_, ?_⟩
  · intro ar2 it3 ev2 f h2
    rw [(next_ok_inv ar2 it2 it3 ev2 f h2).1, hp]
  · intro ar2 it3 ev2 e2 h2
    rw [next_err_inv ar2 it2 it3 ev2 e2 h2, hp]

/-- Witness for C10: after `errAr` fails at position 0, retrying with the
healthy oracle yields the position-0 record, and retrying with the failing
oracle yields the same error again. -/
theorem C10_witness :
    (errItAfter.current_pos = wIt0.current_pos ∧
     (∀ (ar2 : SzArchive) (it3 : ArchiveIterator) (ev2 : List NativeEvent)
        (f : ArchiveFile),
       ArchiveIterator.next ar2 errItAfter = (it3, ev2, some (Except.ok f)) →
       f.pos = wIt0.current_pos) ∧
     (∀ (ar2 : SzArchive) (it3 : ArchiveIterator) (ev2 : List NativeEvent)
        (e2 : SevenZipError),
       ArchiveIterator.next ar2 errItAfter = (it3, ev2, some (Except.error e2)) →
       it3.current_pos = wIt0.current_pos)) ∧
    (ArchiveIterator.next wAr errItAfter).2.2 = some (Except.ok wFile) ∧
    (ArchiveIterator.next errAr errItAfter).2.2 =
      some (Except.error SevenZipError.utf16) :=
  ⟨C10_error_not_fused errAr wIt0 errItAfter errEvents SevenZipError.utf16 rfl,
   rfl, rfl⟩

end SevenZip
